import Mathlib

/-
Verification of the k8s-event-tailer policy layer.

The repository contains two revisions of the event watcher:
* `cmd/k8s-event-tailer/eventwatcher.go` (namespace `Eventwatcher` below),
  whose staleness classifier is the method `isOldEvent`, a function of the
  event's last timestamp and the watcher's start time only; its handlers
  `OnAdd`/`OnUpdate` call the classifier, report or count, and then drain
  the mirror store, while `OnDelete` has the drain call commented out.
* the unnamed revision `src/unnamed/part_001` (namespace `Part001` below),
  whose handlers inline a freshness check that also consults the current
  wall clock via `time.Since`, and which owns the periodic stats loop
  `runStatsPrint`.

Timestamps and durations are modelled as mathematical integers counting
nanoseconds (Go `time.Time`/`time.Duration`); the package-level `int32`
counters are modelled as integers reduced modulo 2^32 into the signed
range on every increment (`wrap32`), matching Go's wrapping `int32`
arithmetic.  Prometheus counters are modelled as exact integers.
-/

/-- Nanoseconds in one second (`time.Second`). -/
def nsPerSecond : Int := 1000000000

/-- Nanoseconds in one minute (`time.Minute`). -/
def nsPerMinute : Int := 60000000000

/-- The constant `oldEventAgeMinutes = 5` from eventwatcher.go. -/
def oldEventAgeMinutes : Int := 5

/-- The staleness threshold `oldEventAgeMinutes*time.Minute` in nanoseconds. -/
def oldEventThreshold : Int := oldEventAgeMinutes * nsPerMinute

/-- 2^31, the first integer above the signed 32-bit range. -/
def int32Half : Int := 2147483648

/-- 2^32, the modulus of 32-bit wrapping arithmetic. -/
def int32Mod : Int := 4294967296

/-- Reduce an integer into the signed 32-bit range, as Go's wrapping
`int32` arithmetic does. -/
def wrap32 (x : Int) : Int := (x + int32Half) % int32Mod - int32Half

/-- A Kubernetes event as consumed by the watcher (`corev1.Event`,
restricted to the fields the program reads): identity, resource version,
message, last-observed timestamp (ns), and occurrence count. -/
structure Event where
  ns : String
  name : String
  resourceVersion : String
  message : String
  lastTimestamp : Int
  count : Int
deriving DecidableEq, Repr

/-- An object delivered by the informer callbacks (`obj interface{}`):
either a pointer to an `Event`, or some value of any other dynamic type. -/
inductive KObject where
  | event (e : Event)
  | other
deriving DecidableEq, Repr

/-- One structured log record produced by `logEvent`: the fields attached
by the zerolog builder, in source order.  `age` is `time.Since(lastTimestamp)`
rounded to the nearest second. -/
structure LogRecord where
  ns : String
  name : String
  version : String
  eventMsg : String
  lastTimestamp : Int
  age : Int
  count : Int
  message : String
deriving DecidableEq, Repr

/-- Go's `Duration.Round(time.Second)`: round to the nearest multiple of a
second, halves away from zero. -/
def roundToSecond (d : Int) : Int :=
  if 0 ≤ d then ((d + nsPerSecond / 2) / nsPerSecond) * nsPerSecond
  else -(((-d + nsPerSecond / 2) / nsPerSecond) * nsPerSecond)

/-- The mutable state touched by the watcher callbacks: the struct fields
of `EventWatcher` (`_startTime`, `_store`), the package-level `int32`
counters (`addCounter`, `updateCounter`, `deleteCounter`), the four
prometheus counters, and — as observable output — the list of emitted
event log records, the sequence of attempted store deletions, and the
count of "Could not delete object" error diagnostics. -/
structure EventWatcher where
  startTime : Int
  store : List (String × String)
  logs : List LogRecord
  added : Int
  updated : Int
  deleted : Int
  promAdded : Int
  promUpdated : Int
  promDeleted : Int
  promOld : Int
  deleteAttempts : List (String × String)
  errorLogs : Nat
deriving DecidableEq, Repr

/-- The watcher state at startup: counters zero, empty store, fixed start
time. -/
def initWatcher (t : Int) : EventWatcher :=
  { startTime := t, store := [], logs := [], added := 0, updated := 0,
    deleted := 0, promAdded := 0, promUpdated := 0, promDeleted := 0,
    promOld := 0, deleteAttempts := [], errorLogs := 0 }

/-- The store key of an event (namespace/name, as the informer's key
function computes it). -/
def eventKey (e : Event) : String × String := (e.ns, e.name)

/-- Remove a key from the mirror store (map deletion). -/
def removeKey (l : List (String × String)) (k : String × String) :
    List (String × String) :=
  l.filter (fun p => decide (p ≠ k))

/-- The record built by `logEvent(event, message)` at wall-clock time
`now`. -/
def mkLogRecord (now : Int) (e : Event) (message : String) : LogRecord :=
  { ns := e.ns, name := e.name, version := e.resourceVersion,
    eventMsg := e.message, lastTimestamp := e.lastTimestamp,
    age := roundToSecond (now - e.lastTimestamp), count := e.count,
    message := message }

/-- `logEvent`: append one structured record to the log stream.  Identical
in both revisions. -/
def logEvent (ew : EventWatcher) (now : Int) (e : Event) (message : String) :
    EventWatcher :=
  { ew with logs := ew.logs ++ [mkLogRecord now e message] }

/-- `deleteEvent`: ask the mirror store to delete the object.  The store
is the external Resource Mirror; per the spec's external interface,
deletion of an absent key fails with a not-found error, which the watcher
logs at error severity and otherwise ignores.  Every call is recorded in
`deleteAttempts`.  Identical in both revisions. -/
def deleteEvent (ew : EventWatcher) (k : String × String) : EventWatcher :=
  if k ∈ ew.store then
    { ew with store := removeKey ew.store k,
              deleteAttempts := ew.deleteAttempts ++ [k] }
  else
    { ew with errorLogs := ew.errorLogs + 1,
              deleteAttempts := ew.deleteAttempts ++ [k] }

namespace Eventwatcher

/-- `isOldEvent` from cmd/k8s-event-tailer/eventwatcher.go: an event
strictly after the start time is never old; otherwise it is old exactly
when the start time minus the event's last timestamp exceeds the
five-minute threshold (strict inequality). -/
def isOldEvent (ew : EventWatcher) (e : Event) : Bool :=
  if ew.startTime < e.lastTimestamp then false
  else decide (oldEventThreshold < ew.startTime - e.lastTimestamp)

/-- `OnAdd`: type-assert the object to an event (`none` models the panic
of a failed assertion, before any state is touched); if not old, log the
event and increment the add counters, else increment the old-events
counter; finally drain the object from the mirror store. -/
def OnAdd (ew : EventWatcher) (now : Int) (obj : KObject) :
    Option EventWatcher :=
  match obj with
  | .other => none
  | .event e =>
    let ew1 :=
      if !(isOldEvent ew e) then
        let ew2 := logEvent ew now e "Event added"
        { ew2 with added := wrap32 (ew2.added + 1),
                   promAdded := ew2.promAdded + 1 }
      else
        { ew with promOld := ew.promOld + 1 }
    some (deleteEvent ew1 (eventKey e))

/-- `OnUpdate`: type-assert the new object only (`oldObj` is never
inspected); then report or count, and drain the new object. -/
def OnUpdate (ew : EventWatcher) (now : Int) (oldObj newObj : KObject) :
    Option EventWatcher :=
  match newObj with
  | .other => none
  | .event e =>
    let ew1 :=
      if !(isOldEvent ew e) then
        let ew2 := logEvent ew now e "Event updated"
        { ew2 with updated := wrap32 (ew2.updated + 1),
                   promUpdated := ew2.promUpdated + 1 }
      else
        { ew with promOld := ew.promOld + 1 }
    some (deleteEvent ew1 (eventKey e))

/-- `OnDelete`: report or count; the drain call is commented out in the
source (`// ew.deleteEvent(obj)`), so the store is not touched. -/
def OnDelete (ew : EventWatcher) (now : Int) (obj : KObject) :
    Option EventWatcher :=
  match obj with
  | .other => none
  | .event e =>
    if !(isOldEvent ew e) then
      let ew2 := logEvent ew now e "Event deleted"
      some { ew2 with deleted := wrap32 (ew2.deleted + 1),
                      promDeleted := ew2.promDeleted + 1 }
    else
      some { ew with promOld := ew.promOld + 1 }

end Eventwatcher

/-- The counter values read atomically at one stats tick, together with
the mirror size read for the same snapshot. -/
structure TickRead where
  storeSize : Nat
  addC : Int
  updateC : Int
  deleteC : Int
deriving DecidableEq, Repr

/-- All components of a tick read lie in the nonnegative signed 32-bit
range (true of the wrapping counters until 2^31 increments). -/
def TickRead.inRange (r : TickRead) : Prop :=
  0 ≤ r.addC ∧ r.addC < int32Half ∧ 0 ≤ r.updateC ∧ r.updateC < int32Half ∧
    0 ≤ r.deleteC ∧ r.deleteC < int32Half

/-- The tick read with all fields zero. -/
def zeroRead : TickRead := { storeSize := 0, addC := 0, updateC := 0, deleteC := 0 }

/-- One channel receipt selected by the stats loop: the stop signal, or a
ticker fire (carrying the values the loop body reads at that tick). -/
inductive StatsEvent where
  | stop
  | tick (r : TickRead)
deriving DecidableEq, Repr

/-- One log record emitted by the stats reporter. -/
inductive StatsRecord where
  | disabling
  | starting
  | stopping
  | storeSize (n : Nat)
  | counters (addC updateC deleteC : Int)
  | deltas (added updated deleted : Int)
deriving DecidableEq, Repr

/-- The delta triples among a list of stats records. -/
def deltasOf (rs : List StatsRecord) : List (Int × Int × Int) :=
  rs.filterMap (fun r =>
    match r with
    | .deltas a u d => some (a, u, d)
    | _ => none)

namespace Part001

/-- The freshness condition inlined in the part_001 handlers:
`event.LastTimestamp.Time.UTC().After(ew._startTime) ||
time.Since(event.LastTimestamp.Time.UTC()) < oldEventAgeMinutes*time.Minute`.
Unlike `Eventwatcher.isOldEvent`, it consults the wall clock `now`. -/
def freshCheck (last start now : Int) : Bool :=
  decide (start < last) || decide (now - last < oldEventThreshold)

/-- `OnAdd` of the part_001 revision: type-assert the object; if the
inline freshness check passes, log and increment the add counters, else
increment the old-events counter; then drain the object from the store. -/
def OnAdd (ew : EventWatcher) (now : Int) (obj : KObject) :
    Option EventWatcher :=
  match obj with
  | .other => none
  | .event e =>
    let ew1 :=
      if freshCheck e.lastTimestamp ew.startTime now then
        let ew2 := logEvent ew now e "Event added"
        { ew2 with added := wrap32 (ew2.added + 1),
                   promAdded := ew2.promAdded + 1 }
      else
        { ew with promOld := ew.promOld + 1 }
    some (deleteEvent ew1 (eventKey e))

/-- `OnUpdate` of the part_001 revision: type-assert the new object only
(`oldObj` is never inspected); report or count; drain the new object. -/
def OnUpdate (ew : EventWatcher) (now : Int) (oldObj newObj : KObject) :
    Option EventWatcher :=
  match newObj with
  | .other => none
  | .event e =>
    let ew1 :=
      if freshCheck e.lastTimestamp ew.startTime now then
        let ew2 := logEvent ew now e "Event updated"
        { ew2 with updated := wrap32 (ew2.updated + 1),
                   promUpdated := ew2.promUpdated + 1 }
      else
        { ew with promOld := ew.promOld + 1 }
    some (deleteEvent ew1 (eventKey e))

/-- `OnDelete` of the part_001 revision: report or count; the drain call
is commented out in the source (`// ew.deleteEvent(obj)`). -/
def OnDelete (ew : EventWatcher) (now : Int) (obj : KObject) :
    Option EventWatcher :=
  match obj with
  | .other => none
  | .event e =>
    if freshCheck e.lastTimestamp ew.startTime now then
      let ew2 := logEvent ew now e "Event deleted"
      some { ew2 with deleted := wrap32 (ew2.deleted + 1),
                      promDeleted := ew2.promDeleted + 1 }
    else
      some { ew with promOld := ew.promOld + 1 }

/-- The body of `runStatsPrint`'s select loop, carrying the retained
previous snapshot (`prevAdd`, `prevUpdate`, `prevDelete`, initialized to
zero by the caller).  A stop receipt logs "Stopping stats" and returns,
discarding everything still pending; a tick receipt emits the store size,
the cumulative counters, and the three wrapping `int32` differences
against the retained snapshot, then retains the current values.  An
exhausted list models the end of the observation window while the loop
is still blocked. -/
def statsLoop : Int → Int → Int → List StatsEvent → List StatsRecord
  | _, _, _, [] => []
  | _, _, _, .stop :: _ => [.stopping]
  | pa, pu, pd, .tick r :: rest =>
    .storeSize r.storeSize :: .counters r.addC r.updateC r.deleteC ::
      .deltas (wrap32 (r.addC - pa)) (wrap32 (r.updateC - pu))
        (wrap32 (r.deleteC - pd)) ::
      statsLoop r.addC r.updateC r.deleteC rest

/-- `runStatsPrint`: with a non-positive interval, log "Disabling stats"
and return at once, scheduling nothing; otherwise start the ticker, log
"Starting stats", and run the select loop with the retained snapshot
initialized to zero. -/
def runStatsPrint (intervalSeconds : Int) (events : List StatsEvent) :
    List StatsRecord :=
  if intervalSeconds ≤ 0 then [.disabling]
  else .starting :: statsLoop 0 0 0 events

end Part001

namespace Webserver

/-- The shutdown grace period handed to the HTTP server,
`context.WithTimeout(context.Background(), 10*time.Second)` in
webserver `stop`. -/
def shutdownGracePeriod : Int := 10 * nsPerSecond

end Webserver

/-- One notification dispatched to the watcher during the process
lifetime, with the wall-clock time at which the callback runs.  (Stats
ticks only load the counters atomically and never mutate them, so they do
not appear as counter-mutating operations.) -/
inductive Op where
  | add (e : Event) (now : Int)
  | update (oldObj : KObject) (e : Event) (now : Int)
  | delete (e : Event) (now : Int)
deriving Repr

/-- Apply one notification to the watcher state via the part_001
handlers (all of which succeed on event-typed objects). -/
def applyOp (ew : EventWatcher) : Op → EventWatcher
  | .add e now => (Part001.OnAdd ew now (.event e)).getD ew
  | .update oldObj e now => (Part001.OnUpdate ew now oldObj (.event e)).getD ew
  | .delete e now => (Part001.OnDelete ew now (.event e)).getD ew

/-- The watcher state after a sequence of notifications, starting from
the initial state fixed at session start time `t`. -/
def execOps (t : Int) (ops : List Op) : EventWatcher :=
  ops.foldl applyOp (initWatcher t)

/-- A process-wide shutdown state of the lifecycle coordinator:
the buffered signal channel, whether `close(stopChan)` has run and how
many times, main's control point (`<-signalChan` / `wg.Wait()` /
returned), which components have completed, and the value of the
wait-group counter main blocks on. -/
structure SysState where
  sigCount : Nat
  stopClosed : Bool
  closeCount : Nat
  mainPC : Nat
  statsDone : Bool
  watcherDone : Bool
  webDone : Bool
  wgCount : Nat
deriving DecidableEq, Repr

/-- Main blocked on `<-signalChan`. -/
def pcWaitSignal : Nat := 0

/-- Main blocked on `wg.Wait()`. -/
def pcWaitGroup : Nat := 1

/-- Main has returned (the process exits). -/
def pcExited : Nat := 2

/-- The state at startup: no signal, stop channel open, main blocked on
the signal channel, all components running, `wg` holding the two
`wg.Add(1)` registrations (watcher `Run` and the web server's `stop`
goroutine). -/
def initSys : SysState :=
  { sigCount := 0, stopClosed := false, closeCount := 0,
    mainPC := pcWaitSignal, statsDone := false, watcherDone := false,
    webDone := false, wgCount := 2 }

/-- One interleaved step of the shutdown protocol, as implemented by
`main`, `EventWatcher.Run`/`runStatsPrint` (part_001 revision, stats
enabled), and the web server's `Run`/`stop` goroutines:

* `signal` — the OS delivers a termination signal to `signalChan`.
* `closeStop` — main, woken from `<-signalChan`, logs and runs
  `close(stopChan)` exactly once and moves to `wg.Wait()`.
* `statsStop` — `runStatsPrint` observes the closed stop channel and
  returns (`iwg.Done`).
* `watcherStop` — `Run`'s `iwg.Wait()` returns once the stats reporter is
  done, so `Run` returns and its deferred `wg.Done()` runs.
* `webStop` — the web server, unblocked by the closed stop channel,
  cancels its context, finishes `Shutdown` within the grace period, and
  its `stop` goroutine runs `wg.Done()`.
* `mainExit` — `wg.Wait()` returns once the counter reaches zero and the
  process exits. -/
inductive SysStep : SysState → SysState → Prop where
  | signal (s : SysState) :
      SysStep s { s with sigCount := s.sigCount + 1 }
  | closeStop (s : SysState) (h1 : s.mainPC = pcWaitSignal)
      (h2 : 1 ≤ s.sigCount) :
      SysStep s { s with mainPC := pcWaitGroup, stopClosed := true,
                         closeCount := s.closeCount + 1 }
  | statsStop (s : SysState) (h1 : s.stopClosed = true)
      (h2 : s.statsDone = false) :
      SysStep s { s with statsDone := true }
  | watcherStop (s : SysState) (h1 : s.stopClosed = true)
      (h2 : s.statsDone = true) (h3 : s.watcherDone = false) :
      SysStep s { s with watcherDone := true, wgCount := s.wgCount - 1 }
  | webStop (s : SysState) (h1 : s.stopClosed = true)
      (h2 : s.webDone = false) :
      SysStep s { s with webDone := true, wgCount := s.wgCount - 1 }
  | mainExit (s : SysState) (h1 : s.mainPC = pcWaitGroup)
      (h2 : s.wgCount = 0) :
      SysStep s { s with mainPC := pcExited }

/-- The states the process can be in: reachable from startup by
interleaved steps. -/
inductive SysReachable : SysState → Prop where
  | init : SysReachable initSys
  | step {s t : SysState} : SysReachable s → SysStep s t → SysReachable t

/-- A sample event whose identity is fixed and whose last timestamp is
the given instant. -/
def eventAt (t : Int) : Event :=
  { ns := "default", name := "ev", resourceVersion := "1",
    message := "msg", lastTimestamp := t, count := 1 }

/-- A sample watcher state whose mirror store holds the sample event. -/
def sampleState : EventWatcher :=
  { initWatcher 0 with store := [("default", "ev")] }

/-- A sample tick read: seven adds observed by the first tick. -/
def sampleRead0 : TickRead :=
  { storeSize := 7, addC := 7, updateC := 0, deleteC := 0 }

/-- A sample tick read: nine adds, two updates, one delete by the second
tick. -/
def sampleRead1 : TickRead :=
  { storeSize := 3, addC := 9, updateC := 2, deleteC := 1 }

/-- The delta triple the stats loop is specified to emit: current
cumulative values minus the previous snapshot's values. -/
def expectedDelta (prev r : TickRead) : Int × Int × Int :=
  (r.addC - prev.addC, r.updateC - prev.updateC, r.deleteC - prev.deleteC)

/-- The sequence of delta triples the loop emits for a run of ticks,
threading the retained previous snapshot. -/
def deltaSeq : Int → Int → Int → List TickRead → List (Int × Int × Int)
  | _, _, _, [] => []
  | pa, pu, pd, r :: rest =>
    (wrap32 (r.addC - pa), wrap32 (r.updateC - pu), wrap32 (r.deleteC - pd)) ::
      deltaSeq r.addC r.updateC r.deleteC rest

/-- All four counters lie between 0 and `n`. -/
def countersBounded (s : EventWatcher) (n : Int) : Prop :=
  0 ≤ s.added ∧ s.added ≤ n ∧ 0 ≤ s.updated ∧ s.updated ≤ n ∧
    0 ≤ s.deleted ∧ s.deleted ≤ n ∧ 0 ≤ s.promOld ∧ s.promOld ≤ n

/-- The inductive invariant of the shutdown protocol: the wait-group
counter counts exactly the not-yet-done tracked components, the watcher
can only be done once the stats reporter is, main past the signal wait
implies the stop channel is closed, the stop channel has been closed
exactly once iff main is past the signal wait, and main can only have
exited with the wait-group at zero. -/
def sysInv (s : SysState) : Prop :=
  s.wgCount =
      (if s.watcherDone then 0 else 1) + (if s.webDone then 0 else 1) ∧
    (s.watcherDone = true → s.statsDone = true) ∧
    (s.mainPC ≠ pcWaitSignal → s.stopClosed = true) ∧
    s.closeCount = (if s.mainPC = pcWaitSignal then 0 else 1) ∧
    (s.mainPC = pcExited → s.wgCount = 0)

/-- The terminal state of a complete shutdown run. -/
def sampleFinal : SysState :=
  { sigCount := 1, stopClosed := true, closeCount := 1, mainPC := pcExited,
    statsDone := true, watcherDone := true, webDone := true, wgCount := 0 }

theorem wrap32_eq_self (x : Int) (h1 : -int32Half ≤ x) (h2 : x < int32Half) :
    wrap32 x = x := by
  unfold wrap32 int32Half int32Mod at *
  omega

theorem removeKey_of_not_mem (l : List (String × String))
    (k : String × String) (h : k ∉ l) : removeKey l k = l := by
  unfold removeKey
  apply List.filter_eq_self.mpr
  intro a ha
  simp only [decide_eq_true_eq]
  exact fun heq => h (heq ▸ ha)

@[simp] theorem deleteEvent_startTime (x : EventWatcher) (k : String × String) :
    (deleteEvent x k).startTime = x.startTime := by
  unfold deleteEvent; split <;> rfl

@[simp] theorem deleteEvent_logs (x : EventWatcher) (k : String × String) :
    (deleteEvent x k).logs = x.logs := by
  unfold deleteEvent; split <;> rfl

@[simp] theorem deleteEvent_added (x : EventWatcher) (k : String × String) :
    (deleteEvent x k).added = x.added := by
  unfold deleteEvent; split <;> rfl

@[simp] theorem deleteEvent_updated (x : EventWatcher) (k : String × String) :
    (deleteEvent x k).updated = x.updated := by
  unfold deleteEvent; split <;> rfl

@[simp] theorem deleteEvent_deleted (x : EventWatcher) (k : String × String) :
    (deleteEvent x k).deleted = x.deleted := by
  unfold deleteEvent; split <;> rfl

@[simp] theorem deleteEvent_promAdded (x : EventWatcher) (k : String × String) :
    (deleteEvent x k).promAdded = x.promAdded := by
  unfold deleteEvent; split <;> rfl

@[simp] theorem deleteEvent_promUpdated (x : EventWatcher) (k : String × String) :
    (deleteEvent x k).promUpdated = x.promUpdated := by
  unfold deleteEvent; split <;> rfl

@[simp] theorem deleteEvent_promDeleted (x : EventWatcher) (k : String × String) :
    (deleteEvent x k).promDeleted = x.promDeleted := by
  unfold deleteEvent; split <;> rfl

@[simp] theorem deleteEvent_promOld (x : EventWatcher) (k : String × String) :
    (deleteEvent x k).promOld = x.promOld := by
  unfold deleteEvent; split <;> rfl

@[simp] theorem deleteEvent_attempts (x : EventWatcher) (k : String × String) :
    (deleteEvent x k).deleteAttempts = x.deleteAttempts ++ [k] := by
  unfold deleteEvent; split <;> rfl

@[simp] theorem deleteEvent_store (x : EventWatcher) (k : String × String) :
    (deleteEvent x k).store = removeKey x.store k := by
  unfold deleteEvent
  split
  · rfl
  · exact (removeKey_of_not_mem x.store k (by assumption)).symm

/-- C1: for every event and session start time, an event whose last
timestamp is strictly after the start time is classified not old; an
event at or before the start time is old exactly when the start time
minus its last timestamp strictly exceeds the five-minute threshold, and
the boundary of exactly five minutes is classified not old. -/
theorem c1_staleness_classification (ew : EventWatcher) (e : Event) :
    (ew.startTime < e.lastTimestamp → Eventwatcher.isOldEvent ew e = false) ∧
    (e.lastTimestamp ≤ ew.startTime →
      (Eventwatcher.isOldEvent ew e = true ↔
        oldEventThreshold < ew.startTime - e.lastTimestamp)) ∧
    (ew.startTime - e.lastTimestamp = oldEventThreshold →
      Eventwatcher.isOldEvent ew e = false) := by
  have hth : oldEventThreshold = 300000000000 := by
    norm_num [oldEventThreshold, oldEventAgeMinutes, nsPerMinute]
  unfold Eventwatcher.isOldEvent
  refine ⟨fun h => by rw [if_pos h], fun h => ?_, fun h => ?_⟩
  · rw [if_neg (by omega)]
    simp
  · rw [if_neg (by omega)]
    simp [h]

theorem c1_staleness_classification_witness :
    ((initWatcher 0).startTime < (eventAt 1).lastTimestamp ∧
      Eventwatcher.isOldEvent (initWatcher 0) (eventAt 1) = false) ∧
    ((eventAt (-400000000000)).lastTimestamp ≤ (initWatcher 0).startTime ∧
      Eventwatcher.isOldEvent (initWatcher 0) (eventAt (-400000000000)) = true) ∧
    ((initWatcher 0).startTime - (eventAt (-300000000000)).lastTimestamp =
        oldEventThreshold ∧
      Eventwatcher.isOldEvent (initWatcher 0) (eventAt (-300000000000)) = false) :=
  ⟨⟨by decide, (c1_staleness_classification (initWatcher 0) (eventAt 1)).1
      (by decide)⟩,
   ⟨by decide,
    ((c1_staleness_classification (initWatcher 0)
        (eventAt (-400000000000))).2.1 (by decide)).mpr (by decide)⟩,
   ⟨by decide, (c1_staleness_classification (initWatcher 0)
      (eventAt (-300000000000))).2.2 (by decide)⟩⟩

/-- C2: the staleness classifier is a pure, deterministic function of
exactly the event's last timestamp and the session start time — two
states agreeing on those two values classify identically, and the branch
`OnAdd` takes is the same at any two wall-clock run times, equal to the
pure classification. -/
theorem c2_classifier_pure (ew1 ew2 : EventWatcher) (e1 e2 : Event)
    (now1 now2 : Int) (hts : e1.lastTimestamp = e2.lastTimestamp)
    (hst : ew1.startTime = ew2.startTime) :
    Eventwatcher.isOldEvent ew1 e1 = Eventwatcher.isOldEvent ew2 e2 ∧
    (Eventwatcher.OnAdd ew1 now1 (KObject.event e1)).map (fun s => s.promOld) =
      (Eventwatcher.OnAdd ew1 now2 (KObject.event e1)).map (fun s => s.promOld) ∧
    (Eventwatcher.OnAdd ew1 now1 (KObject.event e1)).map (fun s => s.promOld) =
      some (if Eventwatcher.isOldEvent ew1 e1 then ew1.promOld + 1
        else ew1.promOld) := by
  refine ⟨?_, ?_, ?_⟩
  · unfold Eventwatcher.isOldEvent
    rw [hts, hst]
  · cases h : Eventwatcher.isOldEvent ew1 e1 <;>
      simp [Eventwatcher.OnAdd, h, logEvent]
  · cases h : Eventwatcher.isOldEvent ew1 e1 <;>
      simp [Eventwatcher.OnAdd, h, logEvent]

theorem c2_classifier_pure_witness :
    (eventAt 1).lastTimestamp = (eventAt 1).lastTimestamp ∧
    ((initWatcher 0).startTime = (initWatcher 0).startTime ∧
      (Eventwatcher.isOldEvent (initWatcher 0) (eventAt 1) =
        Eventwatcher.isOldEvent (initWatcher 0) (eventAt 1) ∧
      (Eventwatcher.OnAdd (initWatcher 0) 5 (KObject.event (eventAt 1))).map
          (fun s => s.promOld) =
        (Eventwatcher.OnAdd (initWatcher 0) 99 (KObject.event (eventAt 1))).map
          (fun s => s.promOld) ∧
      (Eventwatcher.OnAdd (initWatcher 0) 5 (KObject.event (eventAt 1))).map
          (fun s => s.promOld) =
        some (if Eventwatcher.isOldEvent (initWatcher 0) (eventAt 1) then
          (initWatcher 0).promOld + 1 else (initWatcher 0).promOld))) :=
  ⟨rfl, rfl,
    c2_classifier_pure (initWatcher 0) (initWatcher 0) (eventAt 1) (eventAt 1)
      5 99 rfl rfl⟩

/-- C3: every add or update notification carrying an event takes exactly
one of two branches — either one log record is emitted with the matching
transition counters incremented (and the old-events counter untouched),
or only the old-events counter is incremented (and neither log nor
transition counter changes) — and in both branches the object is then
removed from the mirror store, with the removal attempt recorded. -/
theorem c3_add_update_branches (ew : EventWatcher) (now : Int) (e : Event)
    (oldObj : KObject) :
    (((Part001.OnAdd ew now (KObject.event e)).map (fun s => s.logs) =
          some (ew.logs ++ [mkLogRecord now e "Event added"]) ∧
        (Part001.OnAdd ew now (KObject.event e)).map (fun s => s.added) =
          some (wrap32 (ew.added + 1)) ∧
        (Part001.OnAdd ew now (KObject.event e)).map (fun s => s.promAdded) =
          some (ew.promAdded + 1) ∧
        (Part001.OnAdd ew now (KObject.event e)).map (fun s => s.promOld) =
          some ew.promOld ∧
        ¬((Part001.OnAdd ew now (KObject.event e)).map (fun s => s.promOld) =
          some (ew.promOld + 1))) ∨
      ((Part001.OnAdd ew now (KObject.event e)).map (fun s => s.promOld) =
          some (ew.promOld + 1) ∧
        (Part001.OnAdd ew now (KObject.event e)).map (fun s => s.logs) =
          some ew.logs ∧
        (Part001.OnAdd ew now (KObject.event e)).map (fun s => s.added) =
          some ew.added ∧
        (Part001.OnAdd ew now (KObject.event e)).map (fun s => s.promAdded) =
          some ew.promAdded ∧
        ¬((Part001.OnAdd ew now (KObject.event e)).map (fun s => s.logs) =
          some (ew.logs ++ [mkLogRecord now e "Event added"])))) ∧
    (Part001.OnAdd ew now (KObject.event e)).map (fun s => s.store) =
      some (removeKey ew.store (eventKey e)) ∧
    (Part001.OnAdd ew now (KObject.event e)).map (fun s => s.deleteAttempts) =
      some (ew.deleteAttempts ++ [eventKey e]) ∧
    (((Part001.OnUpdate ew now oldObj (KObject.event e)).map (fun s => s.logs) =
          some (ew.logs ++ [mkLogRecord now e "Event updated"]) ∧
        (Part001.OnUpdate ew now oldObj (KObject.event e)).map
            (fun s => s.updated) = some (wrap32 (ew.updated + 1)) ∧
        (Part001.OnUpdate ew now oldObj (KObject.event e)).map
            (fun s => s.promUpdated) = some (ew.promUpdated + 1) ∧
        (Part001.OnUpdate ew now oldObj (KObject.event e)).map
            (fun s => s.promOld) = some ew.promOld ∧
        ¬((Part001.OnUpdate ew now oldObj (KObject.event e)).map
            (fun s => s.promOld) = some (ew.promOld + 1))) ∨
      ((Part001.OnUpdate ew now oldObj (KObject.event e)).map
            (fun s => s.promOld) = some (ew.promOld + 1) ∧
        (Part001.OnUpdate ew now oldObj (KObject.event e)).map
            (fun s => s.logs) = some ew.logs ∧
        (Part001.OnUpdate ew now oldObj (KObject.event e)).map
            (fun s => s.updated) = some ew.updated ∧
        (Part001.OnUpdate ew now oldObj (KObject.event e)).map
            (fun s => s.promUpdated) = some ew.promUpdated ∧
        ¬((Part001.OnUpdate ew now oldObj (KObject.event e)).map
            (fun s => s.logs) =
          some (ew.logs ++ [mkLogRecord now e "Event updated"])))) ∧
    (Part001.OnUpdate ew now oldObj (KObject.event e)).map (fun s => s.store) =
      some (removeKey ew.store (eventKey e)) ∧
    (Part001.OnUpdate ew now oldObj (KObject.event e)).map
        (fun s => s.deleteAttempts) =
      some (ew.deleteAttempts ++ [eventKey e]) := by
  cases hf : Part001.freshCheck e.lastTimestamp ew.startTime now
  · refine ⟨Or.inr ⟨?_, ?_, ?_, ?_, ?_⟩, ?_, ?_,
      Or.inr ⟨?_, ?_, ?_, ?_, ?_⟩, ?_, ?_⟩ <;>
      simp [Part001.OnAdd, Part001.OnUpdate, hf, logEvent]
  · refine ⟨Or.inl ⟨?_, ?_, ?_, ?_, ?_⟩, ?_, ?_,
      Or.inl ⟨?_, ?_, ?_, ?_, ?_⟩, ?_, ?_⟩ <;>
      simp [Part001.OnAdd, Part001.OnUpdate, hf, logEvent]

theorem c3_add_update_branches_witness :
    (Part001.OnAdd sampleState 5 (KObject.event (eventAt 3))).map
        (fun s => s.logs) = some [mkLogRecord 5 (eventAt 3) "Event added"] ∧
    (Part001.OnAdd sampleState 5 (KObject.event (eventAt 3))).map
        (fun s => s.added) = some 1 ∧
    (Part001.OnAdd sampleState 5 (KObject.event (eventAt 3))).map
        (fun s => s.promOld) = some 0 ∧
    (Part001.OnAdd sampleState 5 (KObject.event (eventAt 3))).map
        (fun s => s.store) = some [] ∧
    (Part001.OnAdd sampleState 5 (KObject.event (eventAt 3))).map
        (fun s => s.deleteAttempts) = some [("default", "ev")] := by
  rcases c3_add_update_branches sampleState 5 (eventAt 3) KObject.other with
    ⟨hbr, hstore, hatt, _⟩
  rcases hbr with ⟨hlog, hadd, _, hold, _⟩ | ⟨hold, _, _, _, _⟩
  · refine ⟨?_, ?_, ?_, ?_, ?_⟩
    · rw [hlog]; decide
    · rw [hadd]; decide
    · rw [hold]; decide
    · rw [hstore]; decide
    · rw [hatt]; decide
  · exact absurd hold (by decide)

/-- C4 counterexample: a delete notification for a fresh event whose key
is present in the mirror leaves the store untouched and records no
removal attempt, in both revisions — the claim that delete notifications
still attempt removal is false on the code (the call is commented out). -/
theorem c4_delete_counterexample :
    (Part001.OnDelete sampleState 5 (KObject.event (eventAt 3))).map
        (fun s => s.deleteAttempts) = some [] ∧
    (Part001.OnDelete sampleState 5 (KObject.event (eventAt 3))).map
        (fun s => s.store) = some [("default", "ev")] ∧
    (Eventwatcher.OnDelete sampleState 5 (KObject.event (eventAt 3))).map
        (fun s => s.deleteAttempts) = some [] ∧
    (Eventwatcher.OnDelete sampleState 5 (KObject.event (eventAt 3))).map
        (fun s => s.store) = some [("default", "ev")] := by
  refine ⟨rfl, rfl, rfl, rfl⟩

/-- C4 (amended): on a delete notification the implementation skips the
removal step entirely — in both revisions `OnDelete` leaves the mirror
store unchanged and attempts no store deletion; removal happens only on
add and update notifications. -/
theorem c4_delete_skips_removal (ew : EventWatcher) (now : Int) (e : Event) :
    (Part001.OnDelete ew now (KObject.event e)).map (fun s => s.store) =
      some ew.store ∧
    (Part001.OnDelete ew now (KObject.event e)).map
        (fun s => s.deleteAttempts) = some ew.deleteAttempts ∧
    (Eventwatcher.OnDelete ew now (KObject.event e)).map (fun s => s.store) =
      some ew.store ∧
    (Eventwatcher.OnDelete ew now (KObject.event e)).map
        (fun s => s.deleteAttempts) = some ew.deleteAttempts := by
  refine ⟨?_, ?_, ?_, ?_⟩
  · cases hf : Part001.freshCheck e.lastTimestamp ew.startTime now <;>
      simp [Part001.OnDelete, hf, logEvent]
  · cases hf : Part001.freshCheck e.lastTimestamp ew.startTime now <;>
      simp [Part001.OnDelete, hf, logEvent]
  · cases hf : Eventwatcher.isOldEvent ew e <;>
      simp [Eventwatcher.OnDelete, hf, logEvent]
  · cases hf : Eventwatcher.isOldEvent ew e <;>
      simp [Eventwatcher.OnDelete, hf, logEvent]

/-- C10 counterexample: `OnUpdate` never inspects its first (old-state)
argument, so an update notification pairing a non-event old object with
an event new object is processed normally — it increments the update
counter and emits a log record instead of aborting — refuting the claim
that each handler aborts on any non-event input object. -/
theorem c10_nonevent_counterexample :
    (Part001.OnUpdate (initWatcher 0) 5 KObject.other
        (KObject.event (eventAt 3))).map (fun s => s.updated) = some 1 ∧
    (Part001.OnUpdate (initWatcher 0) 5 KObject.other
        (KObject.event (eventAt 3))).map (fun s => s.logs.length) = some 1 := by
  refine ⟨by decide, by decide⟩

/-- C10 (amended): each handler aborts (failed type assertion, modelled
as `none`) before touching any counter or the store exactly when the
object it asserts is not an event: the single object for `OnAdd` and
`OnDelete`, and the new object for `OnUpdate`; `OnUpdate` never inspects
its old-object argument, so a non-event old object with an event new
object is processed normally. -/
theorem c10_nonevent_abort (ew : EventWatcher) (now : Int) (e : Event)
    (obj : KObject) :
    Part001.OnAdd ew now KObject.other = none ∧
    Part001.OnUpdate ew now obj KObject.other = none ∧
    Part001.OnDelete ew now KObject.other = none ∧
    (Part001.OnUpdate ew now KObject.other (KObject.event e)).isSome = true :=
  ⟨rfl, rfl, rfl, rfl⟩

theorem deltaSeq_length (reads : List TickRead) (pa pu pd : Int) :
    (deltaSeq pa pu pd reads).length = reads.length := by
  induction reads generalizing pa pu pd with
  | nil => rfl
  | cons r rest ih => simp [deltaSeq, ih]

theorem deltasOf_statsLoop (reads : List TickRead) (pa pu pd : Int) :
    deltasOf (Part001.statsLoop pa pu pd (reads.map StatsEvent.tick)) =
      deltaSeq pa pu pd reads := by
  induction reads generalizing pa pu pd with
  | nil => rfl
  | cons r rest ih =>
    simp only [List.map_cons, Part001.statsLoop, deltaSeq, deltasOf,
      List.filterMap_cons]
    simpa [deltasOf] using ih r.addC r.updateC r.deleteC

theorem wrap32_sub_eq (a b : Int) (ha1 : 0 ≤ a) (ha2 : a < int32Half)
    (hb1 : 0 ≤ b) (hb2 : b < int32Half) : wrap32 (a - b) = a - b :=
  wrap32_eq_self _ (by unfold int32Half at *; omega)
    (by unfold int32Half at *; omega)

theorem deltaSeq_get (reads : List TickRead) (prev : TickRead) (i : Nat)
    (hi : i < reads.length) (hprev : prev.inRange)
    (hr : ∀ r ∈ reads, r.inRange) :
    (deltaSeq prev.addC prev.updateC prev.deleteC reads)[i]? =
      some (expectedDelta (if i = 0 then prev else reads[i - 1]) reads[i]) := by
  induction reads generalizing prev i with
  | nil => exact absurd hi (by simp)
  | cons r rest ih =>
    cases i with
    | zero =>
      obtain ⟨h1, h2, h3, h4, h5, h6⟩ := hr r (by simp)
      obtain ⟨p1, p2, p3, p4, p5, p6⟩ := hprev
      simp [deltaSeq, expectedDelta, wrap32_sub_eq _ _ h1 h2 p1 p2,
        wrap32_sub_eq _ _ h3 h4 p3 p4, wrap32_sub_eq _ _ h5 h6 p5 p6]
    | succ n =>
      have hi2 : n < rest.length := by simpa using hi
      have hrec := ih r n hi2 (hr r (by simp))
        (fun x hx => hr x (by simp [hx]))
      simp only [deltaSeq, List.getElem?_cons_succ]
      rw [hrec]
      congr 1
      cases n with
      | zero => simp [expectedDelta]
      | succ m => simp [expectedDelta]

/-- C5: with stats enabled, the i-th snapshot's delta fields equal the
i-th tick's cumulative counter values minus the values retained from the
previous snapshot, and on the first tick they equal the cumulative values
themselves, the retained values being initialized to zero (counter values
within the nonnegative `int32` range, so the wrapping subtraction is
exact). -/
theorem c5_stats_deltas (reads : List TickRead) (interval : Int)
    (hpos : 0 < interval) (hr : ∀ r ∈ reads, r.inRange) (i : Nat)
    (hi : i < reads.length) :
    (deltasOf (Part001.runStatsPrint interval (reads.map StatsEvent.tick)))[i]? =
      some (expectedDelta (if i = 0 then zeroRead else reads[i - 1]) reads[i]) := by
  unfold Part001.runStatsPrint
  rw [if_neg (by omega)]
  have h0 : deltasOf (StatsRecord.starting ::
      Part001.statsLoop 0 0 0 (reads.map StatsEvent.tick)) =
      deltasOf (Part001.statsLoop 0 0 0 (reads.map StatsEvent.tick)) := by
    simp [deltasOf, List.filterMap_cons]
  rw [h0, deltasOf_statsLoop]
  have hz : zeroRead.inRange := by
    unfold TickRead.inRange zeroRead int32Half
    norm_num
  simpa [zeroRead] using deltaSeq_get reads zeroRead i hi hz hr

theorem c5_stats_deltas_witness :
    (0 : Int) < 10 ∧
    (∀ r ∈ [sampleRead0, sampleRead1], r.inRange) ∧
    (deltasOf (Part001.runStatsPrint 10
        ([sampleRead0, sampleRead1].map StatsEvent.tick)))[1]? =
      some (2, 2, 1) := by
  have hr : ∀ r ∈ [sampleRead0, sampleRead1], r.inRange := by
    intro r hmem
    simp only [List.mem_cons, List.not_mem_nil, or_false] at hmem
    rcases hmem with rfl | rfl <;>
      norm_num [TickRead.inRange, sampleRead0, sampleRead1, int32Half]
  refine ⟨by norm_num, hr, ?_⟩
  have h := c5_stats_deltas [sampleRead0, sampleRead1] 10 (by norm_num) hr 1
    (by norm_num)
  rw [h]
  decide

/-- C6: with a non-positive interval the stats reporter emits no snapshot
records over any observation window, logs exactly one record that stats
are disabled, and returns without consuming any tick. -/
theorem c6_stats_disabled (interval : Int) (h : interval ≤ 0)
    (events : List StatsEvent) :
    Part001.runStatsPrint interval events = [StatsRecord.disabling] ∧
    deltasOf (Part001.runStatsPrint interval events) = [] := by
  unfold Part001.runStatsPrint
  rw [if_pos h]
  exact ⟨rfl, rfl⟩

theorem c6_stats_disabled_witness :
    (0 : Int) ≤ 0 ∧
    (Part001.runStatsPrint 0 [StatsEvent.tick sampleRead0] =
        [StatsRecord.disabling] ∧
      deltasOf (Part001.runStatsPrint 0 [StatsEvent.tick sampleRead0]) = []) :=
  ⟨by norm_num, c6_stats_disabled 0 (by norm_num) [StatsEvent.tick sampleRead0]⟩

theorem statsLoop_stop (pre : List TickRead) (pa pu pd : Int)
    (rest : List StatsEvent) :
    Part001.statsLoop pa pu pd
        (pre.map StatsEvent.tick ++ StatsEvent.stop :: rest) =
      Part001.statsLoop pa pu pd (pre.map StatsEvent.tick) ++
        [StatsRecord.stopping] := by
  induction pre generalizing pa pu pd with
  | nil => rfl
  | cons r pre2 ih => simp [Part001.statsLoop, ih]

/-- C7: once the stats loop selects the stop signal it logs that stats
are stopping and returns: the emitted records do not depend on anything
still pending behind the stop signal, the last record is the stopping
record, and the number of emitted snapshots equals the number of ticks
processed before the stop. -/
theorem c7_stop_terminates (interval : Int) (h : 0 < interval)
    (pre : List TickRead) (rest : List StatsEvent) :
    Part001.runStatsPrint interval
        (pre.map StatsEvent.tick ++ StatsEvent.stop :: rest) =
      Part001.runStatsPrint interval
        (pre.map StatsEvent.tick ++ [StatsEvent.stop]) ∧
    (Part001.runStatsPrint interval
        (pre.map StatsEvent.tick ++ StatsEvent.stop :: rest)).getLast? =
      some StatsRecord.stopping ∧
    (deltasOf (Part001.runStatsPrint interval
        (pre.map StatsEvent.tick ++ StatsEvent.stop :: rest))).length =
      pre.length := by
  have e1 := statsLoop_stop pre 0 0 0 rest
  have e2 := statsLoop_stop pre 0 0 0 []
  have hno : ¬ interval ≤ 0 := by omega
  unfold Part001.runStatsPrint
  simp only [if_neg hno]
  refine ⟨by rw [e1, e2], ?_, ?_⟩
  · rw [e1, ← List.cons_append]
    exact List.getLast?_concat _
  · rw [e1]
    have h3 : deltasOf (StatsRecord.starting ::
        (Part001.statsLoop 0 0 0 (pre.map StatsEvent.tick) ++
          [StatsRecord.stopping])) =
        deltasOf (Part001.statsLoop 0 0 0 (pre.map StatsEvent.tick)) := by
      simp [deltasOf, List.filterMap_cons, List.filterMap_append]
    rw [h3, deltasOf_statsLoop, deltaSeq_length]

theorem c7_stop_terminates_witness :
    (0 : Int) < 10 ∧
    (Part001.runStatsPrint 10
        ([sampleRead0].map StatsEvent.tick ++
          StatsEvent.stop :: [StatsEvent.tick sampleRead1]) =
      Part001.runStatsPrint 10
        ([sampleRead0].map StatsEvent.tick ++ [StatsEvent.stop]) ∧
    (Part001.runStatsPrint 10
        ([sampleRead0].map StatsEvent.tick ++
          StatsEvent.stop :: [StatsEvent.tick sampleRead1])).getLast? =
      some StatsRecord.stopping ∧
    (deltasOf (Part001.runStatsPrint 10
        ([sampleRead0].map StatsEvent.tick ++
          StatsEvent.stop :: [StatsEvent.tick sampleRead1]))).length =
      [sampleRead0].length) :=
  ⟨by norm_num,
    c7_stop_terminates 10 (by norm_num) [sampleRead0]
      [StatsEvent.tick sampleRead1]⟩

theorem applyOp_counters (s : EventWatcher) (op : Op) :
    ((applyOp s op).added = s.added ∨
      (applyOp s op).added = wrap32 (s.added + 1)) ∧
    ((applyOp s op).updated = s.updated ∨
      (applyOp s op).updated = wrap32 (s.updated + 1)) ∧
    ((applyOp s op).deleted = s.deleted ∨
      (applyOp s op).deleted = wrap32 (s.deleted + 1)) ∧
    ((applyOp s op).promOld = s.promOld ∨
      (applyOp s op).promOld = s.promOld + 1) := by
  cases op with
  | add e now =>
    cases hf : Part001.freshCheck e.lastTimestamp s.startTime now <;>
      simp [applyOp, Part001.OnAdd, hf, logEvent]
  | update o e now =>
    cases hf : Part001.freshCheck e.lastTimestamp s.startTime now <;>
      simp [applyOp, Part001.OnUpdate, hf, logEvent]
  | delete e now =>
    cases hf : Part001.freshCheck e.lastTimestamp s.startTime now <;>
      simp [applyOp, Part001.OnDelete, hf, logEvent]

theorem applyOp_bounded (s : EventWatcher) (op : Op) (n : Int)
    (hb : countersBounded s n) (hn : n + 1 < int32Half) :
    countersBounded (applyOp s op) (n + 1) := by
  have hpos : (0 : Int) < int32Half := by unfold int32Half; norm_num
  obtain ⟨b1, b2, b3, b4, b5, b6, b7, b8⟩ := hb
  obtain ⟨ha, hu, hd, ho⟩ := applyOp_counters s op
  have key : ∀ x y : Int, (y = x ∨ y = wrap32 (x + 1)) → 0 ≤ x → x ≤ n →
      0 ≤ y ∧ y ≤ n + 1 := by
    intro x y hy hx1 hx2
    rcases hy with rfl | rfl
    · omega
    · rw [wrap32_eq_self _ (by omega) (by omega)]
      omega
  obtain ⟨k1, k2⟩ := key _ _ ha b1 b2
  obtain ⟨k3, k4⟩ := key _ _ hu b3 b4
  obtain ⟨k5, k6⟩ := key _ _ hd b5 b6
  refine ⟨k1, k2, k3, k4, k5, k6, ?_, ?_⟩ <;> rcases ho with h | h <;>
    rw [h] <;> omega

theorem foldl_bounded (ops : List Op) (s : EventWatcher) (n : Int)
    (hb : countersBounded s n) (hn : n + (ops.length : Int) < int32Half) :
    countersBounded (ops.foldl applyOp s) (n + (ops.length : Int)) := by
  induction ops generalizing s n with
  | nil => simpa using hb
  | cons op rest ih =>
    simp only [List.foldl_cons, List.length_cons]
    simp only [List.length_cons] at hn
    have h1 := applyOp_bounded s op n hb (by omega)
    have h2 := ih (applyOp s op) (n + 1) h1 (by omega)
    have harith : n + ((rest.length + 1 : Nat) : Int) =
        n + 1 + (rest.length : Int) := by
      push_cast
      ring
    rw [harith]
    exact h2

/-- C8: along any trace of notifications from process start, each of the
four counters (added, updated, deleted, old) is mutated by each operation
either not at all or by a single increment, and — as long as fewer than
2^31 operations have run, so the wrapping `int32` increment is exact — it
never decreases and is never reset. -/
theorem c8_counters_monotone (t : Int) (ops : List Op) (op : Op)
    (hn : (ops.length : Int) + 1 < int32Half) :
    ((execOps t ops).added ≤ (execOps t (ops ++ [op])).added ∧
      ((execOps t (ops ++ [op])).added = (execOps t ops).added ∨
        (execOps t (ops ++ [op])).added = (execOps t ops).added + 1)) ∧
    ((execOps t ops).updated ≤ (execOps t (ops ++ [op])).updated ∧
      ((execOps t (ops ++ [op])).updated = (execOps t ops).updated ∨
        (execOps t (ops ++ [op])).updated = (execOps t ops).updated + 1)) ∧
    ((execOps t ops).deleted ≤ (execOps t (ops ++ [op])).deleted ∧
      ((execOps t (ops ++ [op])).deleted = (execOps t ops).deleted ∨
        (execOps t (ops ++ [op])).deleted = (execOps t ops).deleted + 1)) ∧
    ((execOps t ops).promOld ≤ (execOps t (ops ++ [op])).promOld ∧
      ((execOps t (ops ++ [op])).promOld = (execOps t ops).promOld ∨
        (execOps t (ops ++ [op])).promOld = (execOps t ops).promOld + 1)) := by
  have hpos : (0 : Int) < int32Half := by unfold int32Half; norm_num
  have hfold : execOps t (ops ++ [op]) = applyOp (execOps t ops) op := by
    unfold execOps
    rw [List.foldl_append]
    rfl
  have h0 : countersBounded (initWatcher t) 0 := by
    unfold countersBounded initWatcher
    norm_num
  have hb : countersBounded (execOps t ops) (ops.length : Int) := by
    have := foldl_bounded ops (initWatcher t) 0 h0 (by omega)
    simpa [execOps] using this
  obtain ⟨b1, b2, b3, b4, b5, b6, b7, b8⟩ := hb
  obtain ⟨ha, hu, hd, ho⟩ := applyOp_counters (execOps t ops) op
  rw [hfold]
  refine ⟨?_, ?_, ?_, ?_⟩
  · rcases ha with h | h
    · rw [h]
      exact ⟨le_refl _, Or.inl rfl⟩
    · rw [h, wrap32_eq_self _ (by omega) (by omega)]
      exact ⟨by omega, Or.inr rfl⟩
  · rcases hu with h | h
    · rw [h]
      exact ⟨le_refl _, Or.inl rfl⟩
    · rw [h, wrap32_eq_self _ (by omega) (by omega)]
      exact ⟨by omega, Or.inr rfl⟩
  · rcases hd with h | h
    · rw [h]
      exact ⟨le_refl _, Or.inl rfl⟩
    · rw [h, wrap32_eq_self _ (by omega) (by omega)]
      exact ⟨by omega, Or.inr rfl⟩
  · rcases ho with h | h
    · rw [h]
      exact ⟨le_refl _, Or.inl rfl⟩
    · rw [h]
      exact ⟨by omega, Or.inr rfl⟩

theorem c8_counters_monotone_witness :
    ((([] : List Op).length : Int) + 1 < int32Half) ∧
    ((execOps 0 []).added ≤ (execOps 0 ([] ++ [Op.add (eventAt 3) 5])).added ∧
      ((execOps 0 ([] ++ [Op.add (eventAt 3) 5])).added = (execOps 0 []).added ∨
        (execOps 0 ([] ++ [Op.add (eventAt 3) 5])).added =
          (execOps 0 []).added + 1)) ∧
    ((execOps 0 []).updated ≤
        (execOps 0 ([] ++ [Op.add (eventAt 3) 5])).updated ∧
      ((execOps 0 ([] ++ [Op.add (eventAt 3) 5])).updated =
          (execOps 0 []).updated ∨
        (execOps 0 ([] ++ [Op.add (eventAt 3) 5])).updated =
          (execOps 0 []).updated + 1)) ∧
    ((execOps 0 []).deleted ≤
        (execOps 0 ([] ++ [Op.add (eventAt 3) 5])).deleted ∧
      ((execOps 0 ([] ++ [Op.add (eventAt 3) 5])).deleted =
          (execOps 0 []).deleted ∨
        (execOps 0 ([] ++ [Op.add (eventAt 3) 5])).deleted =
          (execOps 0 []).deleted + 1)) ∧
    ((execOps 0 []).promOld ≤
        (execOps 0 ([] ++ [Op.add (eventAt 3) 5])).promOld ∧
      ((execOps 0 ([] ++ [Op.add (eventAt 3) 5])).promOld =
          (execOps 0 []).promOld ∨
        (execOps 0 ([] ++ [Op.add (eventAt 3) 5])).promOld =
          (execOps 0 []).promOld + 1)) :=
  ⟨by norm_num [int32Half],
    c8_counters_monotone 0 [] (Op.add (eventAt 3) 5) (by norm_num [int32Half])⟩

theorem sysInv_init : sysInv initSys := by
  unfold sysInv initSys pcWaitSignal pcExited
  norm_num

theorem sysInv_step {s t : SysState} (hs : sysInv s) (hst : SysStep s t) :
    sysInv t := by
  obtain ⟨i1, i2, i3, i4, i5⟩ := hs
  cases hst with
  | signal => exact ⟨i1, i2, i3, i4, i5⟩
  | closeStop h1 h2 =>
    have i4a : s.closeCount = 0 := by rw [i4, if_pos h1]
    refine ⟨i1, i2, fun _ => rfl, ?_, ?_⟩
    · show s.closeCount + 1 = if pcWaitGroup = pcWaitSignal then 0 else 1
      rw [i4a]
      decide
    · intro hx
      exact absurd (show pcWaitGroup = pcExited from hx) (by decide)
  | statsStop h1 h2 => exact ⟨i1, fun _ => rfl, i3, i4, i5⟩
  | watcherStop h1 h2 h3 =>
    have i1a : s.wgCount = 1 + (if s.webDone then 0 else 1) := by
      rw [i1, h3]
      simp
    refine ⟨?_, fun _ => h2, i3, i4, ?_⟩
    · show s.wgCount - 1 =
        (if (true : Bool) then 0 else 1) + (if s.webDone then 0 else 1)
      rw [i1a]
      cases hwb : s.webDone <;> simp
    · intro hx
      have := i5 hx
      omega
  | webStop h1 h2 =>
    have i1a : s.wgCount = (if s.watcherDone then 0 else 1) + 1 := by
      rw [i1, h2]
      simp
    refine ⟨?_, i2, i3, i4, ?_⟩
    · show s.wgCount - 1 =
        (if s.watcherDone then 0 else 1) + (if (true : Bool) then 0 else 1)
      rw [i1a]
      cases hwa : s.watcherDone <;> simp
    · intro hx
      have := i5 hx
      omega
  | mainExit h1 h2 =>
    refine ⟨i1, i2, ?_, ?_, fun _ => h2⟩
    · intro _
      exact i3 (by rw [h1]; decide)
    · show s.closeCount = if pcExited = pcWaitSignal then 0 else 1
      rw [i4, h1]
      decide

theorem sysInv_reachable {s : SysState} (h : SysReachable s) : sysInv s := by
  induction h with
  | init => exact sysInv_init
  | step hr hst ih => exact sysInv_step ih hst

/-- C9: in every reachable state of the shutdown protocol, the stop
signal has been broadcast at most once; if the process has exited then
the watcher, the stats reporter and the HTTP server have all acknowledged
completion; and the HTTP server's shutdown grace period is the bounded
constant of ten seconds. -/
theorem c9_shutdown (s : SysState) (h : SysReachable s) :
    (s.mainPC = pcExited →
      s.watcherDone = true ∧ s.statsDone = true ∧ s.webDone = true) ∧
    s.closeCount ≤ 1 ∧
    Webserver.shutdownGracePeriod = 10 * nsPerSecond := by
  obtain ⟨i1, i2, i3, i4, i5⟩ := sysInv_reachable h
  refine ⟨?_, ?_, rfl⟩
  · intro hx
    have hw := i5 hx
    rw [i1] at hw
    cases hwa : s.watcherDone <;> cases hwe : s.webDone <;>
      simp [hwa, hwe] at hw ⊢
    exact i2 hwa
  · rw [i4]
    split <;> omega

theorem c9_shutdown_witness :
    (sampleFinal.mainPC = pcExited →
      sampleFinal.watcherDone = true ∧ sampleFinal.statsDone = true ∧
        sampleFinal.webDone = true) ∧
    sampleFinal.closeCount ≤ 1 ∧
    Webserver.shutdownGracePeriod = 10 * nsPerSecond :=
  c9_shutdown sampleFinal (by
    have r0 : SysReachable initSys := SysReachable.init
    have r1 : SysReachable
        { sigCount := 1, stopClosed := false, closeCount := 0,
          mainPC := pcWaitSignal, statsDone := false, watcherDone := false,
          webDone := false, wgCount := 2 } := r0.step (SysStep.signal _)
    have r2 : SysReachable
        { sigCount := 1, stopClosed := true, closeCount := 1,
          mainPC := pcWaitGroup, statsDone := false, watcherDone := false,
          webDone := false, wgCount := 2 } :=
      r1.step (SysStep.closeStop _ rfl (by norm_num))
    have r3 : SysReachable
        { sigCount := 1, stopClosed := true, closeCount := 1,
          mainPC := pcWaitGroup, statsDone := true, watcherDone := false,
          webDone := false, wgCount := 2 } :=
      r2.step (SysStep.statsStop _ rfl rfl)
    have r4 : SysReachable
        { sigCount := 1, stopClosed := true, closeCount := 1,
          mainPC := pcWaitGroup, statsDone := true, watcherDone := true,
          webDone := false, wgCount := 1 } :=
      r3.step (SysStep.watcherStop _ rfl rfl rfl)
    have r5 : SysReachable
        { sigCount := 1, stopClosed := true, closeCount := 1,
          mainPC := pcWaitGroup, statsDone := true, watcherDone := true,
          webDone := true, wgCount := 0 } :=
      r4.step (SysStep.webStop _ rfl rfl)
    exact r5.step (SysStep.mainExit _ rfl rfl))
